import Mathlib

/-!
Verification of the agno-agents repository specification.

The repository is two notebooks: one wires an agno `Agent` to a SQLite
database through `SQLTools` (src/unnamed/part_000), the other wires an
agent to a PDF knowledge base plus DuckDuckGo web search
(src/agno_agent_advanced.ipynb).  The notebooks' own code is the database
setup script, the two agent configurations, and a try/except fallback that
rebuilds the agent with markdown disabled.  The agent loop itself lives in
the external agno framework and is not part of the repository; where a
claim is about that loop, the definitions below are modelled from the
spec (each such definition says so in its doc comment).

Monetary amounts (SQL type NUMERIC(10,2)) are represented exactly as
integer cents: 999.99 is 99999.
-/

namespace AgnoAgents

/-! ## SQLite fixture database (src/unnamed/part_000, cell 38240428) -/

/-- A row of the `customers` table: `id INTEGER PRIMARY KEY AUTOINCREMENT,
name TEXT, email TEXT`. -/
structure Customer where
  id : Nat
  name : String
  email : String
deriving DecidableEq, Repr

/-- A row of the `orders` table: `id INTEGER PRIMARY KEY AUTOINCREMENT,
customer_id INTEGER, product TEXT, amount NUMERIC(10,2)` with a foreign
key on `customer_id`.  `amount` is in cents. -/
structure Order where
  id : Nat
  customer_id : Nat
  product : String
  amount : Nat
deriving DecidableEq, Repr

/-- The two customer rows inserted by the setup cell. -/
def customers : List Customer :=
  [ ⟨1, "John Doe", "john@example.com"⟩,
    ⟨2, "Jane Smith", "jane@example.com"⟩ ]

/-- The three order rows inserted by the setup cell. -/
def orders : List Order :=
  [ ⟨1, 1, "Laptop", 99999⟩,
    ⟨2, 1, "Mouse", 1999⟩,
    ⟨3, 2, "Keyboard", 4999⟩ ]

/-! ## SQLite statement semantics for the setup script

The setup cell runs, in order: `PRAGMA foreign_keys = ON`, two
`CREATE TABLE IF NOT EXISTS` statements, and five `INSERT` statements with
explicit primary-key values.  We give these statements a small exact
semantics: a table is `Option (List row)` (`none` = table absent),
`CREATE TABLE IF NOT EXISTS` is a no-op on an existing table, and an
`INSERT` with an explicit `id` that already exists in the table fails with
a uniqueness-constraint error, as SQLite does for `INTEGER PRIMARY KEY`. -/

/-- Database state: the two tables of the fixture schema. -/
structure SqliteDb where
  customersTable : Option (List Customer)
  ordersTable : Option (List Order)
deriving DecidableEq, Repr

/-- Errors a statement of the setup script can raise. -/
inductive SqlError where
  | uniqueConstraint (column : String)
  | noSuchTable (table : String)
  | foreignKeyViolation
deriving DecidableEq, Repr

/-- The statements appearing in the setup cell. -/
inductive SqlStmt where
  | pragmaForeignKeysOn
  | createCustomersIfNotExists
  | createOrdersIfNotExists
  | insertCustomer (id : Nat) (name email : String)
  | insertOrder (id customer_id : Nat) (product : String) (amount : Nat)
deriving DecidableEq, Repr

/-- Execute one statement against a database state. -/
def execStmt (db : SqliteDb) : SqlStmt → Except SqlError SqliteDb
  | .pragmaForeignKeysOn => .ok db
  | .createCustomersIfNotExists =>
      .ok { db with customersTable := some (db.customersTable.getD []) }
  | .createOrdersIfNotExists =>
      .ok { db with ordersTable := some (db.ordersTable.getD []) }
  | .insertCustomer i n e =>
      match db.customersTable with
      | none => .error (.noSuchTable "customers")
      | some rows =>
          if rows.any (fun r => r.id == i) then
            .error (.uniqueConstraint "customers.id")
          else
            .ok { db with customersTable := some (rows ++ [⟨i, n, e⟩]) }
  | .insertOrder i cid p a =>
      match db.ordersTable with
      | none => .error (.noSuchTable "orders")
      | some rows =>
          if rows.any (fun r => r.id == i) then
            .error (.uniqueConstraint "orders.id")
          else if (db.customersTable.getD []).any (fun c => c.id == cid) then
            .ok { db with ordersTable := some (rows ++ [⟨i, cid, p, a⟩]) }
          else
            .error .foreignKeyViolation

/-- Execute a script statement by statement, stopping at the first error,
as SQLAlchemy's `connection.execute` raises at the failing statement. -/
def runScript (db : SqliteDb) : List SqlStmt → Except SqlError SqliteDb
  | [] => .ok db
  | s :: rest => (execStmt db s).bind (fun db2 => runScript db2 rest)

/-- The setup script of cell 38240428, in source order. -/
def setupScript : List SqlStmt :=
  [ .pragmaForeignKeysOn,
    .createCustomersIfNotExists,
    .createOrdersIfNotExists,
    .insertCustomer 1 "John Doe" "john@example.com",
    .insertCustomer 2 "Jane Smith" "jane@example.com",
    .insertOrder 1 1 "Laptop" 99999,
    .insertOrder 2 1 "Mouse" 1999,
    .insertOrder 3 2 "Keyboard" 4999 ]

/-- A database file that does not exist yet: no tables. -/
def emptyDb : SqliteDb := ⟨none, none⟩

/-- The database produced by one successful run of the setup script. -/
def dbAfterSetup : SqliteDb := ⟨some customers, some orders⟩

/-! ## The two documented queries (src/unnamed/part_000, cells c5811f68
and 1361de2c)

The notebook documents the generated SQL as
`SELECT * FROM customers JOIN orders ON customers.id = orders.customer_id`
and
`SELECT c.name, SUM(o.amount) FROM customers c JOIN orders o
 ON c.id = o.customer_id GROUP BY c.name`. -/

/-- Inner join of customers and orders on `customers.id = orders.customer_id`,
rows produced customer by customer as SQLite's nested-loop scan does. -/
def joinCustomersOrders (cs : List Customer) (os : List Order) :
    List (Customer × Order) :=
  cs.flatMap (fun c =>
    (os.filter (fun o => o.customer_id == c.id)).map (fun o => (c, o)))

/-- Per-customer sum of order amounts over the join, grouped by customer
name in first-occurrence order. -/
def totalSpent (cs : List Customer) (os : List Order) :
    List (String × Nat) :=
  cs.map (fun c =>
    (c.name,
     ((os.filter (fun o => o.customer_id == c.id)).map Order.amount).sum))

/-! ## Agent loop data model

Modelled from the spec (§3, §4): the loop controller itself lives in the
external agno framework and is not part of the repository's source, so the
Turn/transcript data model, the step algorithm of §4.1, the dispatch
contract of §4.2 and the ingestion gate of §4.3 are taken from the spec's
words. -/

/-- A tool invocation proposed by the model: a tool name and named
arguments. -/
structure ToolCall where
  tool : String
  args : List (String × String)
deriving DecidableEq, Repr

/-- Outcome of executing one tool invocation: a structured result or a
described failure. -/
inductive ToolOutcome where
  | result (data : String)
  | failure (reason : String)
deriving DecidableEq, Repr

/-- One entry of the transcript: a model-generated proposal (final answer
or tool invocations) or a tool-execution result fed back to the model. -/
inductive Turn where
  | finalAnswer (text : String)
  | toolProposal (calls : List ToolCall)
  | toolResult (call : ToolCall) (outcome : ToolOutcome)
deriving DecidableEq, Repr

/-- Response of the text-generation service for one step: a final answer,
one-or-more tool calls, or unavailability of the upstream service. -/
inductive ModelResponse where
  | finalAnswer (text : String)
  | toolCalls (calls : List ToolCall)
  | unavailable
deriving DecidableEq, Repr

/-- The text-generation service, abstracted as a function from the
transcript-so-far (which includes the original instruction context) to a
response.  Modelled from the spec (§6). -/
def Model := List Turn → ModelResponse

/-- A registered tool: name, argument validator for its declared schema,
and the executable capability.  Modelled from the spec (§3, §4.2). -/
structure ToolDescriptor where
  name : String
  validate : List (String × String) → Bool
  execute : List (String × String) → ToolOutcome

/-- Dispatch of §4.2, modelled from the spec: reject unknown tool names
and schema-violating arguments with a structured error (fed back to the
model as a tool-result turn, never a crash); otherwise run the
capability. -/
def dispatch (tools : List ToolDescriptor) (call : ToolCall) : ToolOutcome :=
  match tools.find? (fun t => t.name == call.tool) with
  | none => .failure "UnknownTool"
  | some t =>
      if t.validate call.args then t.execute call.args
      else .failure "InvalidArguments"

/-- The tool-result turn for one proposed invocation. -/
def toolResultTurn (tools : List ToolDescriptor) (c : ToolCall) : Turn :=
  .toolResult c (dispatch tools c)

/-- The tool-result turns the controller appends for one step, in
proposal order (spec §4.1 step 4). -/
def stepToolTurns (tools : List ToolDescriptor) (calls : List ToolCall) :
    List Turn :=
  calls.map (toolResultTurn tools)

/-- The log produced by the underlying scheduler when the invocations of
one step complete in the order given by `order` (a permutation of the
proposal indices): each completion records its proposal index and its
tool-result turn.  Modelled from the spec (§5). -/
def execCompletionOrder (tools : List ToolDescriptor)
    (calls : List ToolCall) (order : List Nat) : List (Nat × Turn) :=
  order.filterMap (fun i =>
    calls[i]?.map (fun c => (i, toolResultTurn tools c)))

/-- The controller's join step: collect the completion log back into
proposal order before appending (spec §4.1 ordering policy). -/
def appendInProposalOrder (n : Nat) (log : List (Nat × Turn)) :
    List Turn :=
  (List.range n).filterMap (fun i =>
    (log.find? (fun p => p.1 == i)).map Prod.snd)

/-- Error taxonomy of §7, modelled from the spec. -/
inductive ErrorKind where
  | invalidArguments
  | unknownTool
  | toolExecutionFailed
  | upstreamUnavailable
  | stepBudgetExceeded
  | outputFormatError
  | missingCredential
deriving DecidableEq, Repr

/-- Run State of §3: pending, completed, or failed with an error kind.
`awaiting_tool_result` is the within-step phase of a pending run and is
not observable between steps, so it is folded into `pending`. -/
inductive Status where
  | pending
  | completed
  | failed (kind : ErrorKind)
deriving DecidableEq, Repr

/-- The state of one run: the append-only transcript, the Run State, and
the number of loop steps used so far. -/
structure RunState where
  transcript : List Turn
  status : Status
  stepsUsed : Nat
deriving DecidableEq, Repr

/-- The initial state of a run: empty transcript, pending, zero steps. -/
def initState : RunState := ⟨[], .pending, 0⟩

/-- One iteration of the loop of §4.1, modelled from the spec: while the
Run State is pending and the step budget is not exhausted, consult the
model; a final answer is appended and completes the run; tool calls are
validated, executed and their results appended in proposal order; an
unavailable upstream fails the run.  An exhausted budget fails the run
with `stepBudgetExceeded`.  Completed and failed states are absorbing. -/
def stepRun (model : Model) (tools : List ToolDescriptor) (maxSteps : Nat)
    (s : RunState) : RunState :=
  match s.status with
  | .pending =>
      if s.stepsUsed < maxSteps then
        match model s.transcript with
        | .finalAnswer text =>
            { transcript := s.transcript ++ [Turn.finalAnswer text],
              status := .completed,
              stepsUsed := s.stepsUsed + 1 }
        | .toolCalls calls =>
            { transcript :=
                s.transcript ++ Turn.toolProposal calls :: stepToolTurns tools calls,
              status := .pending,
              stepsUsed := s.stepsUsed + 1 }
        | .unavailable =>
            { s with status := .failed .upstreamUnavailable }
      else
        { s with status := .failed .stepBudgetExceeded }
  | _ => s

/-- The run state after `k` iterations of the loop. -/
def runStates (model : Model) (tools : List ToolDescriptor)
    (maxSteps : Nat) : Nat → RunState
  | 0 => initState
  | k + 1 => stepRun model tools maxSteps (runStates model tools maxSteps k)

/-- The state in which the loop returns: `maxSteps + 1` iterations always
reach a completed or failed state, which is absorbing. -/
def finalState (model : Model) (tools : List ToolDescriptor)
    (maxSteps : Nat) : RunState :=
  runStates model tools maxSteps (maxSteps + 1)

/-- Whether a turn is a final answer. -/
def isFinalTurn : Turn → Bool
  | .finalAnswer _ => true
  | _ => false

/-- Whether the last turn of a transcript is a final answer. -/
def lastIsFinal (t : List Turn) : Bool :=
  (t.getLast?.map isFinalTurn).getD false

/-- The text of the final answer if the transcript ends in one. -/
def lastFinalAnswerText (t : List Turn) : Option String :=
  match t.getLast? with
  | some (.finalAnswer s) => some s
  | _ => none

/-- Result of `run(request)` (spec §4.1): a final answer or a structured
Failure carrying an error kind, both with the transcript. -/
inductive RunResult where
  | success (answer : String) (transcript : List Turn)
  | failure (kind : ErrorKind) (transcript : List Turn)
deriving DecidableEq, Repr

/-- The public entry point `run(request)` of §4.1, modelled from the
spec: drive the loop to an absorbing state and package the outcome. -/
def runRequest (model : Model) (tools : List ToolDescriptor)
    (maxSteps : Nat) : RunResult :=
  let s := finalState model tools maxSteps
  match s.status with
  | .completed =>
      match lastFinalAnswerText s.transcript with
      | some text => .success text s.transcript
      | none => .failure .upstreamUnavailable s.transcript
  | .failed kind => .failure kind s.transcript
  | .pending => .failure .stepBudgetExceeded s.transcript

/-! ## Final-answer rendering with markdown fallback

Modelled from the spec (§7): `OutputFormatError` is recovered by falling
back to an unformatted rendering and retrying the single render step, not
the whole run.  This generalizes the source's try/except in cell 021d96a0
of src/agno_agent_advanced.ipynb, which disables markdown and retries. -/

/-- Render the final answer text in a mode (`true` = markdown); on a
format error with markdown enabled, retry exactly once with markdown
disabled.  Returns the outcome together with the list of modes attempted,
in order. -/
def renderWithFallback (render : Bool → String → Except String String)
    (markdown : Bool) (text : String) :
    Except String String × List Bool :=
  match render markdown text with
  | .ok s => (.ok s, [markdown])
  | .error e =>
      if markdown then
        match render false text with
        | .ok s => (.ok s, [markdown, false])
        | .error e2 => (.error e2, [markdown, false])
      else
        (.error e, [markdown])

/-- The full pipeline: run the loop once, then render the final answer.
The loop is never re-entered for rendering; only the render step is
retried. -/
def runAndRender (model : Model) (tools : List ToolDescriptor)
    (maxSteps : Nat) (render : Bool → String → Except String String)
    (markdown : Bool) : RunResult × List Bool :=
  match runRequest model tools maxSteps with
  | .success text tr =>
      match renderWithFallback render markdown text with
      | (.ok s, att) => (.success s tr, att)
      | (.error _, att) => (.failure .outputFormatError tr, att)
  | .failure k tr => (.failure k tr, [])

/-! ## Knowledge ingestion gate (spec §4.3)

Modelled from the spec: the observed behavior in
src/agno_agent_advanced.ipynb is `Added 0 documents to knowledge base`
followed by the run proceeding anyway. -/

/-- A knowledge index holding the document chunks its ingestion step
produced. -/
structure KnowledgeIndex where
  chunks : List String
deriving DecidableEq, Repr

/-- Result of the ingestion gate. -/
inductive LoadResult where
  | ready
  | emptyIndexWarning
deriving DecidableEq, Repr

/-- Ingestion gate of §4.3, modelled from the spec: an index whose
ingestion yielded zero indexable chunks is marked empty with a warning,
never a failure. -/
def ensure_loaded (idx : KnowledgeIndex) : LoadResult :=
  if idx.chunks.isEmpty then .emptyIndexWarning else .ready

/-- The retrieval tool over a knowledge index.  Ranking and merging of
hybrid search results are delegated to the external index (spec §4.2), so
the capability returns the stored chunks; an empty index yields a
structured no-documents result, not an error. -/
def search_knowledge (idx : KnowledgeIndex) : ToolDescriptor :=
  { name := "search_knowledge",
    validate := fun args => args.any (fun p => p.1 == "query"),
    execute := fun _ =>
      match idx.chunks with
      | [] => .result "No documents found in knowledge base."
      | cs => .result (String.intercalate "; " cs) }

/-- A model behavior for the degraded-mode scenario: first consult the
retrieval tool, then answer from whatever came back (here: that no
knowledge was found). -/
def degradedRunModel : Model := fun transcript =>
  if transcript.isEmpty then
    .toolCalls [⟨"search_knowledge", [("query", "Thai curry")]⟩]
  else
    .finalAnswer "No knowledge was found in the index."

/-- A model behavior that only ever proposes tool calls. -/
def alwaysToolModel : Model := fun _ =>
  .toolCalls [⟨"run_sql", [("query", "SELECT 1")]⟩]

/-- A model behavior that answers immediately with a final answer. -/
def oneShotModel : Model := fun _ =>
  .finalAnswer "Thai curry history answer"

/-- A renderer whose markdown mode always fails with a format error and
whose plain mode returns the text unchanged. -/
def mdFailingRender : Bool → String → Except String String :=
  fun md text => if md then .error "OutputFormatError" else .ok text

/-! ## Agent configurations of src/agno_agent_advanced.ipynb

These are embedded from the source cells 8c02f089 (the original `agent`)
and 021d96a0 (the fallback `temp_agent` built in the except branch).
`knowledgeRef` is the identity of the knowledge-base object an agent
references (the notebook passes `knowledge=agent.knowledge` to the
fallback agent, i.e. the very same object). -/

/-- The configuration surface of an `Agent(...)` call in the advanced
notebook. -/
structure AgentConfig where
  modelId : String
  description : Option String
  instructions : List String
  knowledgeRef : Option Nat
  tools : List String
  show_tool_calls : Bool
  markdown : Bool
deriving DecidableEq, Repr

/-- Identity of the `PDFUrlKnowledgeBase` object constructed in cell
8c02f089 and loaded once in cell 021d96a0. -/
def thaiRecipesKnowledgeRef : Nat := 0

/-- The original agent of cell 8c02f089. -/
def agent : AgentConfig :=
  { modelId := "gpt-4o-mini",
    description := some "You are a Thai cuisine expert!",
    instructions :=
      [ "Search your knowledge base for Thai recipes.",
        "If the question is better suited for the web, search the web to fill in gaps.",
        "Prefer the information in your knowledge base over the web results." ],
    knowledgeRef := some thaiRecipesKnowledgeRef,
    tools := ["DuckDuckGoTools"],
    show_tool_calls := true,
    markdown := true }

/-- The fallback agent constructed in the except branch of cell
021d96a0; `knowledge=agent.knowledge` reuses the already-loaded
knowledge-base object. -/
def temp_agent : AgentConfig :=
  { modelId := "gpt-4o-mini",
    description := some "You are a Thai cuisine expert!",
    instructions :=
      [ "Search your knowledge base for Thai recipes.",
        "If the question is better suited for the web, search the web to fill in gaps.",
        "Prefer the information in your knowledge base over the web results." ],
    knowledgeRef := agent.knowledgeRef,
    tools := ["DuckDuckGoTools"],
    show_tool_calls := true,
    markdown := false }

/-- The notebook-level actions relevant to knowledge ingestion and
querying. -/
inductive NotebookAction where
  | loadKnowledge (ref : Nat)
  | printMessage (text : String)
  | constructAgent (cfg : AgentConfig)
  | printResponse (cfg : AgentConfig) (query : String) (stream : Bool)
deriving DecidableEq, Repr

/-- Whether an action performs knowledge ingestion. -/
def isLoadKnowledge : NotebookAction → Bool
  | .loadKnowledge _ => true
  | _ => false

/-- The actions executed by the except branch of cell 021d96a0, in source
order: print the recovery message, construct `temp_agent`, retry the
query.  No `knowledge.load()` occurs in this branch. -/
def fallbackBranchActions : List NotebookAction :=
  [ .printMessage
      "Encountered an error with markdown formatting. Retrying without markdown...",
    .constructAgent temp_agent,
    .printResponse temp_agent "What is the history of Thai curry?" true ]

/-! ## Lemmas about the transcript and the loop step -/

theorem lastIsFinal_concat_final (t : List Turn) (s : String) :
    lastIsFinal (t ++ [Turn.finalAnswer s]) = true := by
  simp [lastIsFinal, List.getLast?_concat, isFinalTurn]

theorem lastIsFinal_eq_false_of_all (l : List Turn)
    (h : ∀ x ∈ l, isFinalTurn x = false) : lastIsFinal l = false := by
  unfold lastIsFinal
  cases hl : l.getLast? with
  | none => rfl
  | some x =>
      have hx : x ∈ l := List.mem_of_mem_getLast? hl
      simp [h x hx]

theorem lastIsFinal_append_of_ne_nil (t l : List Turn) (h : l ≠ []) :
    lastIsFinal (t ++ l) = lastIsFinal l := by
  unfold lastIsFinal
  rw [List.getLast?_append_of_ne_nil t h]

theorem lastIsFinal_append_toolTurns (t : List Turn)
    (tools : List ToolDescriptor) (calls : List ToolCall) :
    lastIsFinal (t ++ Turn.toolProposal calls :: stepToolTurns tools calls)
      = false := by
  rw [lastIsFinal_append_of_ne_nil t _ (by simp)]
  apply lastIsFinal_eq_false_of_all
  intro x hx
  rcases List.mem_cons.1 hx with hx | hx
  · subst hx; rfl
  · rcases List.mem_map.1 hx with ⟨c, _, hc⟩
    subst hc; rfl

theorem lastFinalAnswerText_eq_some (t : List Turn) (s : String) :
    lastFinalAnswerText t = some s ↔ t.getLast? = some (Turn.finalAnswer s) := by
  unfold lastFinalAnswerText
  cases t.getLast? with
  | none => simp
  | some x => cases x <;> simp

theorem stepRun_extends_transcript (model : Model) (tools : List ToolDescriptor)
    (maxSteps : Nat) (s : RunState) :
    s.transcript <+: (stepRun model tools maxSteps s).transcript := by
  obtain ⟨t, st, k⟩ := s
  cases st with
  | pending =>
      by_cases hk : k < maxSteps
      · cases hm : model t with
        | finalAnswer s => simp [stepRun, hk, hm]
        | toolCalls calls => simp [stepRun, hk, hm]
        | unavailable => simp [stepRun, hk, hm]
      · simp [stepRun, hk]
  | completed => simp [stepRun]
  | failed kind => simp [stepRun]

theorem stepRun_of_completed (model : Model) (tools : List ToolDescriptor)
    (maxSteps : Nat) (s : RunState) (h : s.status = .completed) :
    stepRun model tools maxSteps s = s := by
  obtain ⟨t, st, k⟩ := s
  cases st with
  | pending => cases h
  | completed => rfl
  | failed kind => cases h

theorem stepRun_preserves_completed_iff (model : Model)
    (tools : List ToolDescriptor) (maxSteps : Nat) (s : RunState)
    (h : s.status = .completed ↔ lastIsFinal s.transcript = true) :
    ((stepRun model tools maxSteps s).status = .completed
      ↔ lastIsFinal (stepRun model tools maxSteps s).transcript = true) := by
  obtain ⟨t, st, k⟩ := s
  cases st with
  | pending =>
      have ht : lastIsFinal t = false := by
        cases hlf : lastIsFinal t
        · rfl
        · exact absurd (h.mpr hlf) (by simp)
      by_cases hk : k < maxSteps
      · cases hm : model t with
        | finalAnswer s =>
            simp [stepRun, hk, hm, lastIsFinal_concat_final]
        | toolCalls calls =>
            simp [stepRun, hk, hm, lastIsFinal_append_toolTurns]
        | unavailable => simp [stepRun, hk, hm, ht]
      · simp [stepRun, hk, ht]
  | completed => exact h
  | failed kind => exact h

theorem runStates_completed_iff (model : Model)
    (tools : List ToolDescriptor) (maxSteps : Nat) (k : Nat) :
    ((runStates model tools maxSteps k).status = .completed
      ↔ lastIsFinal (runStates model tools maxSteps k).transcript = true) := by
  induction k with
  | zero => simp [runStates, initState, lastIsFinal]
  | succ k ih =>
      exact stepRun_preserves_completed_iff model tools maxSteps _ ih

theorem stepRun_pending_toolCalls (model : Model)
    (tools : List ToolDescriptor) (maxSteps : Nat) (s : RunState)
    (calls : List ToolCall) (hst : s.status = .pending)
    (hlt : s.stepsUsed < maxSteps)
    (hm : model s.transcript = ModelResponse.toolCalls calls) :
    stepRun model tools maxSteps s
      = { transcript :=
            s.transcript ++ Turn.toolProposal calls :: stepToolTurns tools calls,
          status := .pending,
          stepsUsed := s.stepsUsed + 1 } := by
  obtain ⟨t, st, n⟩ := s
  cases st with
  | pending => simp_all [stepRun]
  | completed => cases hst
  | failed kind => cases hst

theorem stepRun_pending_budget (model : Model)
    (tools : List ToolDescriptor) (maxSteps : Nat) (s : RunState)
    (hst : s.status = .pending) (hlt : ¬ s.stepsUsed < maxSteps) :
    stepRun model tools maxSteps s
      = { s with status := .failed .stepBudgetExceeded } := by
  obtain ⟨t, st, n⟩ := s
  cases st with
  | pending => simp_all [stepRun]
  | completed => cases hst
  | failed kind => cases hst

theorem runStates_pending_of_allToolCalls (model : Model)
    (tools : List ToolDescriptor) (N : Nat)
    (h : ∀ t, ∃ calls, model t = ModelResponse.toolCalls calls) :
    ∀ k, k ≤ N → (runStates model tools N k).status = .pending
      ∧ (runStates model tools N k).stepsUsed = k := by
  intro k
  induction k with
  | zero => intro _; exact ⟨rfl, rfl⟩
  | succ k ih =>
      intro hk
      obtain ⟨hst, hsteps⟩ := ih (Nat.le_of_succ_le hk)
      obtain ⟨calls, hm⟩ := h (runStates model tools N k).transcript
      have hlt : (runStates model tools N k).stepsUsed < N := by
        rw [hsteps]; exact Nat.lt_of_succ_le hk
      have hstep : runStates model tools N (k + 1)
          = { transcript := (runStates model tools N k).transcript
                ++ Turn.toolProposal calls :: stepToolTurns tools calls,
              status := .pending,
              stepsUsed := (runStates model tools N k).stepsUsed + 1 } :=
        stepRun_pending_toolCalls model tools N _ calls hst hlt hm
      rw [hstep]
      exact ⟨rfl, by rw [hsteps]⟩

theorem find_execCompletionOrder (tools : List ToolDescriptor)
    (calls : List ToolCall) (i : Nat) (hi : i < calls.length) :
    ∀ order : List Nat, i ∈ order →
      (execCompletionOrder tools calls order).find? (fun p => p.1 == i)
        = some (i, toolResultTurn tools (calls.getD i ⟨"", []⟩)) := by
  intro order
  induction order with
  | nil => intro hmem; cases hmem
  | cons j rest ih =>
      intro hmem
      simp only [execCompletionOrder, List.filterMap_cons]
      cases hj : calls[j]? with
      | none =>
          have hij : i ≠ j := by
            intro he; subst he
            rw [List.getElem?_eq_getElem hi] at hj; cases hj
          have hmem2 : i ∈ rest := by
            rcases List.mem_cons.1 hmem with he | hm2
            · exact absurd he hij
            · exact hm2
          simpa only [execCompletionOrder] using ih hmem2
      | some c =>
          by_cases hij : j = i
          · subst hij
            have hc : calls.getD j ⟨"", []⟩ = c := by
              rw [List.getD_eq_getElem?_getD, hj]; rfl
            simp only [Option.map_some']
            rw [List.find?_cons_of_pos _ (by simp), hc]
          · simp only [Option.map_some']
            rw [List.find?_cons_of_neg _ (by simp [hij])]
            have hmem2 : i ∈ rest := by
              rcases List.mem_cons.1 hmem with he | hm2
              · exact absurd he (fun he2 => hij he2.symm)
              · exact hm2
            simpa only [execCompletionOrder] using ih hmem2

theorem filterMap_eq_map_of_forall_some {α β : Type} (l : List α)
    (f : α → Option β) (g : α → β) (h : ∀ x ∈ l, f x = some (g x)) :
    l.filterMap f = l.map g := by
  induction l with
  | nil => rfl
  | cons a l ih =>
      rw [List.filterMap_cons, h a (List.mem_cons_self a l), List.map_cons,
        ih (fun x hx => h x (List.mem_cons_of_mem a hx))]

theorem range_length_map_getD {α β : Type} (l : List α) (d : α)
    (f : α → β) :
    (List.range l.length).map (fun i => f (l.getD i d)) = l.map f := by
  induction l with
  | nil => rfl
  | cons a l ih =>
      rw [List.length_cons, List.range_succ_eq_map, List.map_cons,
        List.map_map]
      congr 1

/-! ## Claim theorems -/

/-- C1: the transcript is append-only (each loop iteration only extends
it), the Run State is `completed` iff the last turn of the transcript is
a final answer, and a completed state is absorbing: no further turns are
ever appended after the final-answer turn. -/
theorem transcript_append_only_and_completed_iff_final (model : Model)
    (tools : List ToolDescriptor) (maxSteps k : Nat) :
    ((runStates model tools maxSteps k).transcript
        <+: (runStates model tools maxSteps (k + 1)).transcript)
    ∧ ((runStates model tools maxSteps k).status = .completed
        ↔ lastIsFinal (runStates model tools maxSteps k).transcript = true)
    ∧ ((runStates model tools maxSteps k).status = .completed
        → runStates model tools maxSteps (k + 1) = runStates model tools maxSteps k) :=
  ⟨stepRun_extends_transcript model tools maxSteps _,
   runStates_completed_iff model tools maxSteps k,
   fun h => stepRun_of_completed model tools maxSteps _ h⟩

/-- C6: a run always returns a structured value: either a success whose
answer is exactly the final-answer turn that closes the transcript, or a
Failure carrying an ErrorKind together with the transcript accumulated so
far — never an uncaught crash, never a partial answer presented as
success. -/
theorem failed_run_returns_structured_failure (model : Model)
    (tools : List ToolDescriptor) (maxSteps : Nat) :
    (∃ text, runRequest model tools maxSteps
        = .success text (finalState model tools maxSteps).transcript
      ∧ (finalState model tools maxSteps).transcript.getLast?
          = some (Turn.finalAnswer text))
    ∨ (∃ kind, runRequest model tools maxSteps
        = .failure kind (finalState model tools maxSteps).transcript) := by
  cases hst : (finalState model tools maxSteps).status with
  | completed =>
      cases hlt : lastFinalAnswerText (finalState model tools maxSteps).transcript with
      | none =>
          right
          exact ⟨.upstreamUnavailable, by simp [runRequest, hst, hlt]⟩
      | some text =>
          left
          exact ⟨text, by simp [runRequest, hst, hlt],
            (lastFinalAnswerText_eq_some _ _).1 hlt⟩
  | failed kind => right; exact ⟨kind, by simp [runRequest, hst]⟩
  | pending => right; exact ⟨.stepBudgetExceeded, by simp [runRequest, hst]⟩

/-- C7: the documented join query over the fixture database yields
exactly the three joined rows of the fixture: John Doe with Laptop 999.99
and Mouse 19.99, and Jane Smith with Keyboard 49.99 (amounts in
cents). -/
theorem join_query_enumerates_three_rows :
    (joinCustomersOrders customers orders).map
        (fun p => (p.1.name, p.2.product, p.2.amount))
      = [("John Doe", "Laptop", 99999), ("John Doe", "Mouse", 1999),
         ("Jane Smith", "Keyboard", 4999)]
    ∧ (joinCustomersOrders customers orders).length = 3 :=
  ⟨rfl, rfl⟩

/-- C8: the documented aggregation over the fixture reports the
per-customer sums computed exactly: John Doe 1019.98 = 999.99 + 19.99 and
Jane Smith 49.99 (amounts in cents). -/
theorem aggregate_totals_exact :
    totalSpent customers orders
      = [("John Doe", 101998), ("Jane Smith", 4999)]
    ∧ (101998 : Nat) = 99999 + 1999 :=
  ⟨rfl, rfl⟩

/-- C9: the fallback `temp_agent` is the original `agent` with only the
markdown flag changed to false; it references the very same knowledge
base object, and the except branch performs no knowledge ingestion, so no
second ingestion occurs during recovery. -/
theorem temp_agent_same_config_except_markdown :
    temp_agent = { agent with markdown := false }
    ∧ temp_agent.knowledgeRef = agent.knowledgeRef
    ∧ fallbackBranchActions.all (fun a => !(isLoadKnowledge a)) = true :=
  ⟨rfl, rfl, rfl⟩

/-- C2: when rendering the final answer fails with a format error on the
first attempt with markdown enabled and a plain rendering succeeds, the
controller retries the render exactly once with markdown disabled
(attempt modes `[true, false]`) and returns the successful plain-text
answer with the run's transcript untouched — the error is not propagated
and the run is not restarted. -/
theorem output_format_fallback_retries_once (model : Model)
    (tools : List ToolDescriptor) (maxSteps : Nat)
    (render : Bool → String → Except String String)
    (text plain e : String) (tr : List Turn)
    (hrun : runRequest model tools maxSteps = .success text tr)
    (hmd : render true text = .error e)
    (hplain : render false text = .ok plain) :
    runAndRender model tools maxSteps render true
      = (.success plain tr, [true, false]) := by
  simp [runAndRender, renderWithFallback, hrun, hmd, hplain]

/-- Witness for C2 at a concrete model and renderer: the markdown render
fails, the retry without markdown returns the plain text, and the
transcript of the completed run is returned unchanged. -/
theorem output_format_fallback_witness :
    runAndRender oneShotModel [] 5 mdFailingRender true
      = (.success "Thai curry history answer"
          [Turn.finalAnswer "Thai curry history answer"], [true, false]) :=
  output_format_fallback_retries_once oneShotModel [] 5 mdFailingRender
    "Thai curry history answer" "Thai curry history answer"
    "OutputFormatError" [Turn.finalAnswer "Thai curry history answer"]
    rfl rfl rfl

/-- C3: an index whose ingestion yielded zero indexable chunks makes
`ensure_loaded` return `EmptyIndexWarning` rather than a failure, and a
subsequent run whose only registered tool is retrieval over that index
still completes with a final answer stating that no knowledge was found,
instead of raising. -/
theorem empty_index_warns_and_run_completes (idx : KnowledgeIndex)
    (h : idx.chunks = []) :
    ensure_loaded idx = .emptyIndexWarning
    ∧ runRequest degradedRunModel [search_knowledge idx] 5
        = .success "No knowledge was found in the index."
          [ Turn.toolProposal [⟨"search_knowledge", [("query", "Thai curry")]⟩],
            Turn.toolResult ⟨"search_knowledge", [("query", "Thai curry")]⟩
              (.result "No documents found in knowledge base."),
            Turn.finalAnswer "No knowledge was found in the index." ] := by
  obtain ⟨chunks⟩ := idx
  dsimp only at h
  subst h
  exact ⟨rfl, rfl⟩

/-- Witness for C3 at the concrete empty index. -/
theorem empty_index_witness :
    ensure_loaded ⟨[]⟩ = .emptyIndexWarning
    ∧ runRequest degradedRunModel [search_knowledge ⟨[]⟩] 5
        = .success "No knowledge was found in the index."
          [ Turn.toolProposal [⟨"search_knowledge", [("query", "Thai curry")]⟩],
            Turn.toolResult ⟨"search_knowledge", [("query", "Thai curry")]⟩
              (.result "No documents found in knowledge base."),
            Turn.finalAnswer "No knowledge was found in the index." ] :=
  empty_index_warns_and_run_completes ⟨[]⟩ rfl

/-- C4: with step budget `N`, a model that only ever proposes tool calls
makes `run` terminate after exactly `N` steps with a Failure of kind
`stepBudgetExceeded` carrying the transcript accumulated so far. -/
theorem step_budget_exceeded_after_exactly_max_steps (model : Model)
    (tools : List ToolDescriptor) (N : Nat)
    (h : ∀ t, ∃ calls, model t = ModelResponse.toolCalls calls) :
    runRequest model tools N
      = .failure .stepBudgetExceeded (finalState model tools N).transcript
    ∧ (finalState model tools N).stepsUsed = N := by
  obtain ⟨hst, hsteps⟩ :=
    runStates_pending_of_allToolCalls model tools N h N (Nat.le_refl N)
  have hnl : ¬ (runStates model tools N N).stepsUsed < N := by
    rw [hsteps]; exact Nat.lt_irrefl N
  have hfin : finalState model tools N
      = { runStates model tools N N with status := .failed .stepBudgetExceeded } :=
    stepRun_pending_budget model tools N _ hst hnl
  refine ⟨?_, ?_⟩
  · simp [runRequest, hfin]
  · rw [hfin]; exact hsteps

/-- Witness for C4 at a concrete always-tool-calling model: the run with
budget 3 uses exactly 3 steps and fails with `stepBudgetExceeded`. -/
theorem step_budget_witness :
    runRequest alwaysToolModel [] 3
      = .failure .stepBudgetExceeded (finalState alwaysToolModel [] 3).transcript
    ∧ (finalState alwaysToolModel [] 3).stepsUsed = 3 :=
  step_budget_exceeded_after_exactly_max_steps alwaysToolModel [] 3
    (fun _ => ⟨_, rfl⟩)

/-- C5: for every completion order of a multi-invocation step (any
permutation of the proposal indices), collecting the completion log back
into proposal order yields exactly the tool-result turns in the order the
invocations were proposed, so the transcript the controller appends is a
deterministic function of the proposal order. -/
theorem tool_results_in_proposal_order (tools : List ToolDescriptor)
    (calls : List ToolCall) (order : List Nat)
    (h : order.Perm (List.range calls.length)) :
    appendInProposalOrder calls.length (execCompletionOrder tools calls order)
      = stepToolTurns tools calls := by
  have hall : ∀ i ∈ List.range calls.length,
      ((execCompletionOrder tools calls order).find? (fun p => p.1 == i)).map
          Prod.snd
        = some (toolResultTurn tools (calls.getD i ⟨"", []⟩)) := by
    intro i hi
    have hlt : i < calls.length := List.mem_range.1 hi
    have hmem : i ∈ order := h.mem_iff.2 hi
    rw [find_execCompletionOrder tools calls i hlt order hmem]
    rfl
  unfold appendInProposalOrder stepToolTurns
  rw [filterMap_eq_map_of_forall_some _ _ _ hall,
    range_length_map_getD calls ⟨"", []⟩ (toolResultTurn tools)]

/-- Witness for C5 at three concrete invocations completing in the
intentionally reordered order `[2, 0, 1]`. -/
theorem proposal_order_witness :
    appendInProposalOrder
        (List.length ([⟨"sql", []⟩, ⟨"web", []⟩, ⟨"kb", []⟩] : List ToolCall))
        (execCompletionOrder []
          [⟨"sql", []⟩, ⟨"web", []⟩, ⟨"kb", []⟩] [2, 0, 1])
      = stepToolTurns [] [⟨"sql", []⟩, ⟨"web", []⟩, ⟨"kb", []⟩] :=
  tool_results_in_proposal_order []
    [⟨"sql", []⟩, ⟨"web", []⟩, ⟨"kb", []⟩] [2, 0, 1] (by decide)

/-- C10: running the setup script on a fresh database succeeds and
produces the fixture tables; running it a second time on the resulting
database fails with a primary-key uniqueness violation on
`customers.id` instead of completing or duplicating rows. -/
theorem second_setup_fails_unique_constraint :
    runScript emptyDb setupScript = .ok dbAfterSetup
    ∧ runScript dbAfterSetup setupScript
        = .error (.uniqueConstraint "customers.id") :=
  ⟨rfl, rfl⟩

end AgnoAgents
